import Mathlib

/-!
Shallow embedding of the authentication subsystem of `spotify-backup`
(`src/authentication.rs`).  Effectful operations (file system, network,
random source, browser, TCP accept loop) are modelled by explicit oracle
values threaded through the functions; machine integers (`u64`, `u32`)
are modelled by `Nat`, with explicit reduction modulo `2 ^ 32` where the
Rust code relies on fixed-width behaviour.
-/

namespace SpotifyBackup

/-! ## Data model (`TokenState`, `AccessTokenResponse`, `CurrentTokenState`) -/

/-- Embeds `struct TokenState { access_token, expires_at, refresh_token }`
(`authentication.rs`, lines 248-253).  `expires_at : u64` is a Nat of unix
seconds. -/
structure TokenState where
  access_token : String
  expires_at : Nat
  refresh_token : String
deriving DecidableEq, Repr

/-- Embeds `struct AccessTokenResponse { access_token, expires_in, refresh_token }`
(`authentication.rs`, lines 255-260). -/
structure AccessTokenResponse where
  access_token : String
  expires_in : Nat
  refresh_token : String
deriving DecidableEq, Repr

/-- Embeds `enum CurrentTokenState` (`authentication.rs`, lines 242-246). -/
inductive CurrentTokenState where
  | Expired (refresh_token : String)
  | Valid (token : TokenState)
  | Missing
deriving DecidableEq, Repr

/-- Errors surfaced by the embedded functions; each constructor corresponds
to one `context(...)` site of the Rust code. -/
inductive AuthError where
  | noDataDir
  | readError (msg : String)
  | transport (msg : String)
  | upstreamRejected (status : Nat)
  | malformedResponse
  | bindError
  | rngExhausted
  | browserError
  | acceptError
  | mkdirError
  | writeError
deriving DecidableEq, Repr

/-- Outcome of `tokio::fs::read` on the token-state path: the file content,
a `NotFound` error, or any other I/O error. -/
inductive FsReadResult where
  | ok (data : String)
  | errNotFound
  | errOther (msg : String)
deriving DecidableEq, Repr

/-! ## Token cache load and classification (`read_token_state`) -/

/-- Embeds `read_token_state` (`authentication.rs`, lines 50-75).
`dataDirOk` models whether `dirs::data_local_dir()` resolves (used by
`build_token_state_path`); `readResult` is the outcome of the
`tokio::fs::read` call; `parse` is the oracle for
`serde_json::from_slice::<TokenState>`; `now` is the current unix time in
seconds.  A parse failure only logs and degrades to `Missing`; the record
is `Expired` when `expires_at < now + 300`, else `Valid`. -/
def read_token_state (dataDirOk : Bool) (readResult : FsReadResult)
    (parse : String → Option TokenState) (now : Nat) :
    Except AuthError CurrentTokenState :=
  if !dataDirOk then .error .noDataDir
  else
    match readResult with
    | .errNotFound => .ok .Missing
    | .errOther m => .error (.readError m)
    | .ok data =>
      match parse data with
      | none => .ok .Missing
      | some t =>
        if t.expires_at < now + 300 then .ok (.Expired t.refresh_token)
        else .ok (.Valid t)

/-! ## Claim theorems about classification and load -/

/-- Claim C2: for every successfully parsed cache record and current time
`now`, the classifier yields `Expired(refresh_token)` exactly when
`expires_at < now + 300` and `Valid(record)` otherwise; in particular
`expires_at = now + 301` is `Valid`, `expires_at = now + 299` is `Expired`,
and only the refresh token survives into the `Expired` variant. -/
theorem classifier_expiry_margin (t : TokenState) (now : Nat) (s : String)
    (parse : String → Option TokenState) (hp : parse s = some t) :
    (∀ r, read_token_state true (.ok s) parse now = .ok (.Expired r) ↔
      (t.expires_at < now + 300 ∧ r = t.refresh_token)) ∧
    (read_token_state true (.ok s) parse now = .ok (.Valid t) ↔
      now + 300 ≤ t.expires_at) ∧
    (t.expires_at = now + 301 →
      read_token_state true (.ok s) parse now = .ok (.Valid t)) ∧
    (t.expires_at = now + 299 →
      read_token_state true (.ok s) parse now = .ok (.Expired t.refresh_token)) := by
  have hform : read_token_state true (.ok s) parse now =
      if t.expires_at < now + 300 then .ok (.Expired t.refresh_token)
      else .ok (.Valid t) := by
    simp [read_token_state, hp]
  by_cases hc : t.expires_at < now + 300
  · rw [hform, if_pos hc]
    refine ⟨fun r => ?_, ?_, ?_, ?_⟩
    · constructor
      · intro h
        exact ⟨hc, by simpa using h.symm⟩
      · intro ⟨_, hr⟩
        simp [hr]
    · constructor
      · intro h
        simp at h
      · omega
    · omega
    · intro _; rfl
  · rw [hform, if_neg hc]
    refine ⟨fun r => ?_, ?_, ?_, ?_⟩
    · constructor
      · intro h
        simp at h
      · intro ⟨h, _⟩
        exact absurd h hc
    · constructor
      · intro _
        omega
      · intro _; rfl
    · intro _; rfl
    · omega

theorem classifier_expiry_margin_witness :
    ((fun _ : String => some (TokenState.mk "a" 301 "r")) "x" =
      some (TokenState.mk "a" 301 "r")) ∧
    ((∀ r, read_token_state true (.ok "x")
        (fun _ => some (TokenState.mk "a" 301 "r")) 0 = .ok (.Expired r) ↔
      ((TokenState.mk "a" 301 "r").expires_at < 0 + 300 ∧
        r = (TokenState.mk "a" 301 "r").refresh_token)) ∧
    (read_token_state true (.ok "x")
        (fun _ => some (TokenState.mk "a" 301 "r")) 0 =
        .ok (.Valid (TokenState.mk "a" 301 "r")) ↔
      0 + 300 ≤ (TokenState.mk "a" 301 "r").expires_at) ∧
    ((TokenState.mk "a" 301 "r").expires_at = 0 + 301 →
      read_token_state true (.ok "x")
        (fun _ => some (TokenState.mk "a" 301 "r")) 0 =
        .ok (.Valid (TokenState.mk "a" 301 "r"))) ∧
    ((TokenState.mk "a" 301 "r").expires_at = 0 + 299 →
      read_token_state true (.ok "x")
        (fun _ => some (TokenState.mk "a" 301 "r")) 0 =
        .ok (.Expired (TokenState.mk "a" 301 "r").refresh_token))) :=
  ⟨rfl, classifier_expiry_margin (TokenState.mk "a" 301 "r") 0 "x" _ rfl⟩

/-- Claim C5: `load` returns `Missing` when the file does not exist and
when its content fails to parse (without raising an error), while any other
read I/O failure is a fatal error rather than a classification. -/
theorem load_missing_vs_fatal (parse : String → Option TokenState)
    (now : Nat) (s m : String) (hp : parse s = none) :
    read_token_state true .errNotFound parse now = .ok .Missing ∧
    read_token_state true (.ok s) parse now = .ok .Missing ∧
    read_token_state true (.errOther m) parse now =
      .error (.readError m) := by
  refine ⟨rfl, ?_, rfl⟩
  simp [read_token_state, hp]

theorem load_missing_vs_fatal_witness :
    ((fun _ : String => (none : Option TokenState)) "garbage" = none) ∧
    (read_token_state true .errNotFound (fun _ => none) 7 = .ok .Missing ∧
    read_token_state true (.ok "garbage") (fun _ => none) 7 = .ok .Missing ∧
    read_token_state true (.errOther "permission denied") (fun _ => none) 7 =
      .error (.readError "permission denied")) :=
  ⟨rfl, load_missing_vs_fatal (fun _ => none) 7 "garbage" "permission denied" rfl⟩

/-! ## Loopback callback server (`spawn_http_server_wait_for_callback`) -/

/-- Embeds `hyper::Method` as matched by the handler: the code only
distinguishes `GET` from everything else (`authentication.rs`, line 179). -/
inductive HttpMethod where
  | GET
  | POST
  | other (name : String)
deriving DecidableEq, Repr

/-- One HTTP request as seen by the handler: `req.method()`,
`req.uri().path()` and `req.uri().query()`. -/
structure HttpRequest where
  method : HttpMethod
  path : String
  query : Option String
deriving DecidableEq, Repr

/-- An HTTP response: status code and body.  Also reused for the token
responses of the token endpoint on the client side. -/
structure HttpResponse where
  status : Nat
  body : String
deriving DecidableEq, Repr

/-- Value of a hex digit, as accepted by the percent-decoder. -/
def hexVal (c : Char) : Option Nat :=
  if '0' ≤ c ∧ c ≤ '9' then some (c.toNat - '0'.toNat)
  else if 'a' ≤ c ∧ c ≤ 'f' then some (c.toNat - 'a'.toNat + 10)
  else if 'A' ≤ c ∧ c ≤ 'F' then some (c.toNat - 'A'.toNat + 10)
  else none

/-- Embeds `percent_encoding::percent_decode`: a `%` followed by two hex
digits becomes the byte they denote; a `%` not followed by two hex digits
is passed through unchanged.  Bytes are modelled as `Char`s of the same
code point (the query of an HTTP request line is ASCII). -/
def percentDecode : List Char → List Char
  | [] => []
  | '%' :: a :: b :: rest =>
    match hexVal a, hexVal b with
    | some hi, some lo => Char.ofNat (16 * hi + lo) :: percentDecode rest
    | _, _ => '%' :: percentDecode (a :: b :: rest)
  | c :: rest => c :: percentDecode rest

/-- Embeds `replace_plus` of `form_urlencoded`: `+` becomes a space. -/
def replacePlus (l : List Char) : List Char :=
  l.map fun c => if c = '+' then ' ' else c

/-- Component decoding used by `form_urlencoded::parse` on each name and
value: replace `+` by space, then percent-decode. -/
def decodeComponent (l : List Char) : List Char :=
  percentDecode (replacePlus l)

/-- Embeds `splitn(2, b'=')` on one `&`-separated sequence: the name is
everything before the first `=`, the value everything after it (empty when
there is no `=`). -/
def splitEq : List Char → List Char × List Char
  | [] => ([], [])
  | '=' :: rest => ([], rest)
  | c :: rest =>
    let (n, v) := splitEq rest
    (c :: n, v)

/-- Embeds `form_urlencoded::parse` (the iterator the handler consumes):
split the query on `&`, skip empty sequences, split each at the first `=`,
and decode name and value. -/
def formUrlencodedParse (q : List Char) : List (String × String) :=
  (q.splitOn '&').filterMap fun seq =>
    match seq with
    | [] => none
    | _ =>
      let (n, v) := splitEq seq
      some (String.mk (decodeComponent n), String.mk (decodeComponent v))

/-- Embeds the request handler closure passed to `service_fn`
(`authentication.rs`, lines 178-204): accepts exactly `GET` on path `/`
with a query whose url-encoded pairs contain a key `code`; on acceptance
it answers 200 with the confirmation body and stores the decoded value of
the first `code` pair in the single-slot holder (second component); any
other request is answered 404 with a diagnostic body and captures
nothing. -/
def handleRequest (req : HttpRequest) : HttpResponse × Option String :=
  match req.method, req.path, req.query with
  | .GET, "/", some q =>
    match (formUrlencodedParse q.data).find? (fun p => p.1 == "code") with
    | some (_, value) =>
      (⟨200, "Successfully authenticated, please return to your terminal"⟩,
        some value)
    | none =>
      (⟨404, "Invalid request, missing code query parameter"⟩, none)
  | _, _, _ =>
    (⟨404, "Invalid request, bad method/path/query params"⟩, none)

/-- One accepted TCP connection: the request the handler got to process
(`none` when the connection failed before a request was handled) and
whether `serve_connection` returned an error (which the loop only logs). -/
structure Conn where
  request : Option HttpRequest
  serveError : Bool
deriving DecidableEq, Repr

/-- What one served connection leaves in the single-slot holder `out`. -/
def connCapture (c : Conn) : Option String :=
  match c.request with
  | none => none
  | some req => (handleRequest req).2

/-- Embeds the accept loop of `spawn_http_server_wait_for_callback`
(`authentication.rs`, lines 165-216) over the sequence of incoming
connections: serve one connection at a time; after each, if the holder was
filled, break with its value, else continue.  An exhausted list models a
wait during which no qualifying callback ever arrives. -/
def spawn_http_server_wait_for_callback : List Conn → Option String
  | [] => none
  | c :: rest =>
    match connCapture c with
    | some v => some v
    | none => spawn_http_server_wait_for_callback rest

/-- First-match property of the `find?` call of the handler over the parsed pairs:
with no `code` key in the prefix, the first `code` pair is found. -/
theorem find_first_code_pair (pre post : List (String × String)) (v : String)
    (hpre : ∀ p ∈ pre, p.1 ≠ "code") :
    (pre ++ ("code", v) :: post).find? (fun p => p.1 == "code") =
      some ("code", v) := by
  induction pre with
  | nil => simp [List.find?]
  | cons a pre ih =>
    have ha : (a.1 == "code") = false :=
      beq_eq_false_iff_ne.mpr (hpre a (by simp))
    simpa [List.find?_cons, ha] using ih fun p hp => hpre p (by simp [hp])

/-- Claim C3: a request is accepted exactly when its method is GET, its
path is exactly `/`, and its query string is present and parses as
url-encoded pairs containing a key `code`; on acceptance the server
responds 200 with the confirmation body, the code value is captured, and
the wait returns that value. -/
theorem callback_acceptance (req : HttpRequest) :
    ((handleRequest req).2.isSome ↔
      req.method = .GET ∧ req.path = "/" ∧
        ∃ q, req.query = some q ∧
          (formUrlencodedParse q.data).any (fun p => p.1 == "code")) ∧
    (∀ code rest, (handleRequest req).2 = some code →
      (handleRequest req).1 =
        ⟨200, "Successfully authenticated, please return to your terminal"⟩ ∧
      spawn_http_server_wait_for_callback
        (Conn.mk (some req) false :: rest) = some code) := by
  rcases req with ⟨m, p, q⟩
  constructor
  · cases m with
    | GET =>
      cases q with
      | none => simp [handleRequest]
      | some qs =>
        by_cases hp : p = "/"
        · subst hp
          rcases hf : (formUrlencodedParse qs.data).find?
              (fun p => p.1 == "code") with _ | pair
          · have hA : (formUrlencodedParse qs.data).any
                (fun p => p.1 == "code") = false := by
              rw [List.any_eq_false]
              intro x hx
              simpa using List.find?_eq_none.mp hf x hx
            simp only [handleRequest, hf]
            constructor
            · intro h
              simp at h
            · rintro ⟨-, -, q', hq', hany⟩
              cases hq'
              rw [hA] at hany
              cases hany
          · have hkey := List.find?_some hf
            have hmem := List.mem_of_find?_eq_some hf
            simp only [handleRequest, hf]
            constructor
            · intro _
              refine ⟨trivial, trivial, qs, rfl, ?_⟩
              rw [List.any_eq_true]
              exact ⟨pair, hmem, hkey⟩
            · intro _
              simp
        · simp [handleRequest, hp]
    | POST => simp [handleRequest]
    | other n => simp [handleRequest]
  · intro code rest h
    refine ⟨?_, by simp [spawn_http_server_wait_for_callback, connCapture, h]⟩
    cases m with
    | GET =>
      cases q with
      | none => simp [handleRequest] at h
      | some qs =>
        by_cases hp : p = "/"
        · subst hp
          rcases hf : (formUrlencodedParse qs.data).find?
              (fun p => p.1 == "code") with _ | pair
          · simp [handleRequest, hf] at h
          · simp [handleRequest, hf]
        · simp [handleRequest, hp] at h
    | POST => simp [handleRequest] at h
    | other n => simp [handleRequest] at h

theorem callback_acceptance_witness :
    (handleRequest ⟨.GET, "/", some "code=ABC123"⟩).2 = some "ABC123" ∧
    (handleRequest ⟨.GET, "/", some "code=ABC123"⟩).1 =
      ⟨200, "Successfully authenticated, please return to your terminal"⟩ ∧
    spawn_http_server_wait_for_callback
      (Conn.mk (some ⟨.GET, "/", some "code=ABC123"⟩) false :: []) =
      some "ABC123" :=
  ⟨rfl, (callback_acceptance ⟨.GET, "/", some "code=ABC123"⟩).2 "ABC123" [] rfl⟩

/-- Claim C4: every request that does not satisfy the acceptance predicate
is answered 404 with a diagnostic body and the accept loop continues past
it; the wait returns a value only when some served connection carried a
qualifying request that captured that value. -/
theorem callback_rejection_continues :
    (∀ (req : HttpRequest) (rest : List Conn) (e : Bool),
      (handleRequest req).2 = none →
      (handleRequest req).1.status = 404 ∧
      spawn_http_server_wait_for_callback (Conn.mk (some req) e :: rest) =
        spawn_http_server_wait_for_callback rest) ∧
    (∀ (conns : List Conn) (v : String),
      spawn_http_server_wait_for_callback conns = some v →
      ∃ c ∈ conns, ∃ req, c.request = some req ∧
        (handleRequest req).2 = some v) := by
  constructor
  · intro req rest e h
    refine ⟨?_, by simp [spawn_http_server_wait_for_callback, connCapture, h]⟩
    unfold handleRequest at h ⊢
    split at h
    · split at h
      · simp at h
      · simp_all
    · rfl
  · intro conns v h
    induction conns with
    | nil => simp [spawn_http_server_wait_for_callback] at h
    | cons c rest ih =>
      rcases hc : connCapture c with _ | v'
      · simp only [spawn_http_server_wait_for_callback, hc] at h
        obtain ⟨c', hc', hreq⟩ := ih h
        exact ⟨c', by simp [hc'], hreq⟩
      · simp only [spawn_http_server_wait_for_callback, hc] at h
        cases h
        rcases c with ⟨r, e⟩
        cases r with
        | none => simp [connCapture] at hc
        | some req =>
          exact ⟨⟨some req, e⟩, by simp, req, rfl, by simpa [connCapture] using hc⟩

theorem callback_rejection_continues_witness :
    ((handleRequest ⟨.GET, "/favicon.ico", none⟩).2 = none ∧
      (handleRequest ⟨.POST, "/", some "code=X"⟩).2 = none) ∧
    ((handleRequest ⟨.GET, "/favicon.ico", none⟩).1.status = 404 ∧
      spawn_http_server_wait_for_callback
        (Conn.mk (some ⟨.GET, "/favicon.ico", none⟩) false :: []) =
        spawn_http_server_wait_for_callback []) ∧
    ((handleRequest ⟨.POST, "/", some "code=X"⟩).1.status = 404 ∧
      spawn_http_server_wait_for_callback
        (Conn.mk (some ⟨.POST, "/", some "code=X"⟩) false :: []) =
        spawn_http_server_wait_for_callback []) :=
  ⟨⟨rfl, rfl⟩,
    callback_rejection_continues.1 ⟨.GET, "/favicon.ico", none⟩ [] false rfl,
    callback_rejection_continues.1 ⟨.POST, "/", some "code=X"⟩ [] false rfl⟩

/-- Claim C9: when the handler has captured a code but serving the
connection reported an error (the loop only logs it), the wait still
terminates and returns the captured code. -/
theorem captured_code_survives_serve_error (req : HttpRequest) (code : String)
    (rest : List Conn) (h : (handleRequest req).2 = some code) :
    spawn_http_server_wait_for_callback (Conn.mk (some req) true :: rest) =
      some code := by
  simp [spawn_http_server_wait_for_callback, connCapture, h]

theorem captured_code_survives_serve_error_witness :
    (handleRequest ⟨.GET, "/", some "code=ABC123"⟩).2 = some "ABC123" ∧
    spawn_http_server_wait_for_callback
      (Conn.mk (some ⟨.GET, "/", some "code=ABC123"⟩) true :: []) =
      some "ABC123" :=
  ⟨rfl, captured_code_survives_serve_error ⟨.GET, "/", some "code=ABC123"⟩
    "ABC123" [] rfl⟩

/-- Claim C10: the captured authorization code is the percent-decoded value
of the first query pair whose key is `code`; later duplicate `code` pairs
are ignored, and percent-encoded characters (and `+`) in the value are
decoded, as on the fixed query `code=A%20B%2Bc&code=second`. -/
theorem first_code_pair_decoded :
    (∀ (q : List Char) (pre post : List (String × String)) (v : String),
      formUrlencodedParse q = pre ++ ("code", v) :: post →
      (∀ p ∈ pre, p.1 ≠ "code") →
      (handleRequest ⟨.GET, "/", some (String.mk q)⟩).2 = some v) ∧
    formUrlencodedParse "code=A%20B%2Bc&code=second".data =
      [("code", "A B+c"), ("code", "second")] ∧
    (handleRequest ⟨.GET, "/", some "code=A%20B%2Bc&code=second"⟩).2 =
      some "A B+c" := by
  refine ⟨?_, by decide, by decide⟩
  intro q pre post v hq hpre
  simp only [handleRequest, hq, find_first_code_pair pre post v hpre]

theorem first_code_pair_decoded_witness :
    (formUrlencodedParse "a=1&code=first&code=second".data =
      [("a", "1")] ++ ("code", "first") :: [("code", "second")] ∧
      (∀ p ∈ [(("a" : String), ("1" : String))], p.1 ≠ "code")) ∧
    (handleRequest ⟨.GET, "/", some "a=1&code=first&code=second"⟩).2 =
      some "first" :=
  ⟨⟨by decide, by decide⟩,
    first_code_pair_decoded.1 "a=1&code=first&code=second".data
      [("a", "1")] [("code", "second")] "first" (by decide) (by decide)⟩

/-! ## Token exchange client (`fetch_access_token`,
`fetch_access_token_from_refresh`, `TryFrom<AccessTokenResponse>`) -/

/-- Outcome of a `reqwest` POST: a transport failure (the `send()` call
errs) or a final HTTP response with status and body. -/
inductive NetResult where
  | transportError (msg : String)
  | response (resp : HttpResponse)
deriving DecidableEq, Repr

/-- Embeds `impl TryFrom<AccessTokenResponse> for TokenState`
(`authentication.rs`, lines 262-283): `expires_at` is the wall-clock time
at conversion plus the server-reported `expires_in`; the two token strings
are carried over verbatim.  (The only failure of the Rust code here is a
pre-epoch system clock, which cannot occur in the `Nat` model of unix
seconds, so the embedding is total.) -/
def tryFromResponse (r : AccessTokenResponse) (now : Nat) : TokenState :=
  { access_token := r.access_token
    refresh_token := r.refresh_token
    expires_at := now + r.expires_in }

/-- Embeds `fetch_access_token` (`authentication.rs`, lines 138-163):
`send()` errors are transport failures; `error_for_status()` turns a
response whose status is in 400..=599 (a reqwest client or server error)
into a fatal error carrying the status; otherwise the body is decoded by
the `parse` oracle for `serde_json`, and decode failure is fatal. -/
def fetch_access_token (net : NetResult)
    (parse : String → Option AccessTokenResponse) :
    Except AuthError AccessTokenResponse :=
  match net with
  | .transportError m => .error (.transport m)
  | .response r =>
    if 400 ≤ r.status ∧ r.status ≤ 599 then .error (.upstreamRejected r.status)
    else
      match parse r.body with
      | none => .error .malformedResponse
      | some a => .ok a

/-- Embeds `fetch_access_token_from_refresh` (`authentication.rs`, lines
86-107): same send / `error_for_status` / decode chain, followed by the
`try_into` conversion to a `TokenState` at the current time. -/
def fetch_access_token_from_refresh (net : NetResult)
    (parse : String → Option AccessTokenResponse) (now : Nat) :
    Except AuthError TokenState :=
  match net with
  | .transportError m => .error (.transport m)
  | .response r =>
    if 400 ≤ r.status ∧ r.status ≤ 599 then .error (.upstreamRejected r.status)
    else
      match parse r.body with
      | none => .error .malformedResponse
      | some a => .ok (tryFromResponse a now)

/-- Claim C6: a token-endpoint response decoded as
`(access_token, expires_in, refresh_token)` at wall-clock time `now` yields
a record with `expires_at = now + expires_in` and both token strings
verbatim; in particular `("A", 3600, "R")` at time `now` gives
`expires_at = now + 3600`. -/
theorem token_record_from_response (r : AccessTokenResponse) (now : Nat) :
    (tryFromResponse r now).expires_at = now + r.expires_in ∧
    (tryFromResponse r now).access_token = r.access_token ∧
    (tryFromResponse r now).refresh_token = r.refresh_token ∧
    tryFromResponse ⟨"A", 3600, "R"⟩ now = ⟨"A", now + 3600, "R"⟩ :=
  ⟨rfl, rfl, rfl, rfl⟩

/-- Parse oracle used in the C8 counterexample: decodes the one fixed body
`"goodbody"` to a well-formed token response. -/
def c8Parse : String → Option AccessTokenResponse :=
  fun s => if s = "goodbody" then some ⟨"A", 3600, "R"⟩ else none

/-- Claim C8 counterexample: a non-2xx status does not always yield a
fatal error.  A final response with status 304 (the
`error_for_status` only rejects 400..=599) whose body decodes succeeds,
returning the decoded response instead of any error — and the refresh
variant likewise returns a token state. -/
theorem non2xx_not_always_error :
    fetch_access_token (.response ⟨304, "goodbody"⟩) c8Parse =
      .ok ⟨"A", 3600, "R"⟩ ∧
    fetch_access_token_from_refresh (.response ⟨304, "goodbody"⟩) c8Parse 1000 =
      .ok ⟨"A", 4600, "R"⟩ := by
  constructor <;> rfl

/-- Claim C8 (amended): for both token-endpoint calls, a response whose
HTTP status is in 400..=599 yields a fatal error carrying the status code
as context, and a response that passes that status check but whose body
fails to decode as `(access_token, expires_in, refresh_token)` yields a
fatal malformed-response error. -/
theorem token_endpoint_error_handling (r : HttpResponse)
    (parse : String → Option AccessTokenResponse) (now : Nat) :
    (400 ≤ r.status → r.status ≤ 599 →
      fetch_access_token (.response r) parse =
        .error (.upstreamRejected r.status) ∧
      fetch_access_token_from_refresh (.response r) parse now =
        .error (.upstreamRejected r.status)) ∧
    (¬(400 ≤ r.status ∧ r.status ≤ 599) → parse r.body = none →
      fetch_access_token (.response r) parse = .error .malformedResponse ∧
      fetch_access_token_from_refresh (.response r) parse now =
        .error .malformedResponse) := by
  constructor
  · intro h1 h2
    constructor <;>
      simp [fetch_access_token, fetch_access_token_from_refresh, h1, h2]
  · intro hs hp
    constructor <;>
      simp [fetch_access_token, fetch_access_token_from_refresh, hs, hp]

theorem token_endpoint_error_handling_witness :
    ((400 ≤ 503 ∧ 503 ≤ 599) ∧
      (fetch_access_token (.response ⟨503, "oops"⟩) c8Parse =
        .error (.upstreamRejected 503) ∧
      fetch_access_token_from_refresh (.response ⟨503, "oops"⟩) c8Parse 7 =
        .error (.upstreamRejected 503))) ∧
    ((¬(400 ≤ 200 ∧ 200 ≤ 599) ∧ c8Parse "notjson" = none) ∧
      (fetch_access_token (.response ⟨200, "notjson"⟩) c8Parse =
        .error .malformedResponse ∧
      fetch_access_token_from_refresh (.response ⟨200, "notjson"⟩) c8Parse 7 =
        .error .malformedResponse)) :=
  ⟨⟨by decide,
    (token_endpoint_error_handling ⟨503, "oops"⟩ c8Parse 7).1
      (by decide) (by decide)⟩,
   ⟨⟨by decide, rfl⟩,
    (token_endpoint_error_handling ⟨200, "notjson"⟩ c8Parse 7).2
      (by decide) rfl⟩⟩

/-! ## SHA-256 (the `sha2` crate as used via
`Sha256::default().chain_update(..).finalize_fixed()`), modelled on byte
lists with `Nat` words reduced modulo `2 ^ 32`. -/

/-- Right rotation of a 32-bit word. -/
def rotr32 (n x : Nat) : Nat :=
  ((x >>> n) ||| (x <<< (32 - n))) % 2 ^ 32

/-- Bitwise complement of a 32-bit word. -/
def not32 (x : Nat) : Nat := x ^^^ 0xffffffff

/-- SHA-256 `Ch` function. -/
def sha256Ch (x y z : Nat) : Nat := (x &&& y) ^^^ (not32 x &&& z)

/-- SHA-256 `Maj` function. -/
def sha256Maj (x y z : Nat) : Nat := (x &&& y) ^^^ (x &&& z) ^^^ (y &&& z)

/-- SHA-256 big Sigma 0. -/
def sha256S0 (x : Nat) : Nat := rotr32 2 x ^^^ rotr32 13 x ^^^ rotr32 22 x

/-- SHA-256 big Sigma 1. -/
def sha256S1 (x : Nat) : Nat := rotr32 6 x ^^^ rotr32 11 x ^^^ rotr32 25 x

/-- SHA-256 small sigma 0. -/
def sha256s0 (x : Nat) : Nat := rotr32 7 x ^^^ rotr32 18 x ^^^ (x >>> 3)

/-- SHA-256 small sigma 1. -/
def sha256s1 (x : Nat) : Nat := rotr32 17 x ^^^ rotr32 19 x ^^^ (x >>> 10)

/-- The 64 SHA-256 round constants. -/
def sha256K : List Nat :=
  [1116352408, 1899447441, 3049323471, 3921009573, 961987163, 1508970993,
   2453635748, 2870763221, 3624381080, 310598401, 607225278, 1426881987,
   1925078388, 2162078206, 2614888103, 3248222580, 3835390401, 4022224774,
   264347078, 604807628, 770255983, 1249150122, 1555081692, 1996064986,
   2554220882, 2821834349, 2952996808, 3210313671, 3336571891, 3584528711,
   113926993, 338241895, 666307205, 773529912, 1294757372, 1396182291,
   1695183700, 1986661051, 2177026350, 2456956037, 2730485921, 2820302411,
   3259730800, 3345764771, 3516065817, 3600352804, 4094571909, 275423344,
   430227734, 506948616, 659060556, 883997877, 958139571, 1322822218,
   1537002063, 1747873779, 1955562222, 2024104815, 2227730452, 2361852424,
   2428436474, 2756734187, 3204031479, 3329325298]

/-- The SHA-256 initial hash value. -/
def sha256H0 : List Nat :=
  [1779033703, 3144134277, 1013904242, 2773480762, 1359893119, 2600822924,
   528734635, 1541459225]

/-- Big-endian byte decomposition of `x` into `k` bytes. -/
def toBytesBE (k x : Nat) : List Nat :=
  (List.range k).map fun i => (x >>> (8 * (k - 1 - i))) % 256

/-- SHA-256 message padding: append `0x80`, zero bytes up to 56 mod 64,
then the bit length as 8 big-endian bytes. -/
def sha256Pad (msg : List Nat) : List Nat :=
  let l := msg.length
  msg ++ 0x80 :: List.replicate ((119 - l % 64) % 64) 0 ++ toBytesBE 8 (8 * l)

/-- Group bytes into big-endian 32-bit words (four bytes each). -/
def bytesToWordsBE : List Nat → List Nat
  | b0 :: b1 :: b2 :: b3 :: rest =>
    (b0 * 2 ^ 24 + b1 * 2 ^ 16 + b2 * 2 ^ 8 + b3) :: bytesToWordsBE rest
  | _ => []

/-- Extend a 16-word block by `n` schedule words. -/
def sha256Extend (ws : List Nat) : Nat → List Nat
  | 0 => ws
  | n + 1 =>
    let prev := sha256Extend ws n
    let w (k : Nat) : Nat := prev.getD (prev.length - k) 0
    prev ++ [(sha256s1 (w 2) + w 7 + sha256s0 (w 15) + w 16) % 2 ^ 32]

/-- One SHA-256 compression: run the 64 rounds of a block over the state
`[a, b, c, d, e, f, g, h]` and add the result to the incoming state. -/
def sha256Compress (h : List Nat) (block : List Nat) : List Nat :=
  let ws := sha256Extend block 48
  let final := (List.zip sha256K ws).foldl
    (fun st kw =>
      match st with
      | [a, b, c, d, e, f, g, hh] =>
        let t1 := (hh + sha256S1 e + sha256Ch e f g + kw.1 + kw.2) % 2 ^ 32
        let t2 := (sha256S0 a + sha256Maj a b c) % 2 ^ 32
        [(t1 + t2) % 2 ^ 32, a, b, c, (d + t1) % 2 ^ 32, e, f, g]
      | st => st)
    h
  (List.zip h final).map fun p => (p.1 + p.2) % 2 ^ 32

/-- Iterate the compression over `n` 16-word blocks. -/
def sha256Blocks : Nat → List Nat → List Nat → List Nat
  | 0, h, _ => h
  | n + 1, h, ws => sha256Blocks n (sha256Compress h (ws.take 16)) (ws.drop 16)

/-- SHA-256 of a byte list, as a 32-byte digest. -/
def sha256 (msg : List Nat) : List Nat :=
  let padded := sha256Pad (msg.map (· % 256))
  let words := bytesToWordsBE padded
  let hFinal := sha256Blocks (words.length / 16) sha256H0 words
  (hFinal.map (toBytesBE 4)).flatten

/-! ## URL-safe unpadded base64 (`base64::engine::general_purpose::URL_SAFE_NO_PAD`) -/

/-- The URL-safe base64 alphabet. -/
def base64UrlAlphabet : List Char :=
  "ABCDEFGHIJKLMNOPQRSTUVWXYZabcdefghijklmnopqrstuvwxyz0123456789-_".data

/-- The character for one 6-bit group. -/
def b64Char (n : Nat) : Char := base64UrlAlphabet.getD n 'A'

/-- Encode a byte list in URL-safe base64 without padding: three bytes map
to four characters; a final group of one or two bytes maps to two or three
characters and no `=` padding is emitted. -/
def b64EncodeList : List Nat → List Char
  | [] => []
  | [b0] => [b64Char (b0 >>> 2), b64Char ((b0 % 4) <<< 4)]
  | [b0, b1] =>
    [b64Char (b0 >>> 2), b64Char (((b0 % 4) <<< 4) ||| (b1 >>> 4)),
     b64Char ((b1 % 16) <<< 2)]
  | b0 :: b1 :: b2 :: rest =>
    b64Char (b0 >>> 2) :: b64Char (((b0 % 4) <<< 4) ||| (b1 >>> 4)) ::
      b64Char (((b1 % 16) <<< 2) ||| (b2 >>> 6)) :: b64Char (b2 % 64) ::
      b64EncodeList rest

/-- URL-safe unpadded base64 of a byte list, as a string. -/
def base64UrlNoPad (bs : List Nat) : String :=
  String.mk (b64EncodeList (bs.map (· % 256)))

/-! ## PKCE generation (`generate_code_challenge`) -/

/-- The charset of the `Alphanumeric` distribution of `rand`
(`GEN_ASCII_STR_CHARSET`). -/
def GEN_ASCII_STR_CHARSET : List Char :=
  "ABCDEFGHIJKLMNOPQRSTUVWXYZabcdefghijklmnopqrstuvwxyz0123456789".data

/-- Embeds one `Alphanumeric` sample: draw `u32`s from the random source,
keep the top six bits, and accept the first value below 62 as an index
into the charset (rejection sampling).  The random source is a finite list
of `u32` draws; `none` models a source exhausted before acceptance. -/
def sampleAlphanumeric : List Nat → Option (Char × List Nat)
  | [] => none
  | v :: rest =>
    let var := (v % 2 ^ 32) >>> 26
    if var < 62 then some (GEN_ASCII_STR_CHARSET.getD var 'A', rest)
    else sampleAlphanumeric rest

/-- Embeds `Alphanumeric.sample_string(rng, len)`: append `len` successive
samples. -/
def sampleAlphanumericString : Nat → List Nat → Option (List Char × List Nat)
  | 0, rng => some ([], rng)
  | n + 1, rng =>
    match sampleAlphanumeric rng with
    | none => none
    | some (c, rng') =>
      match sampleAlphanumericString n rng' with
      | none => none
      | some (cs, rng'') => some (c :: cs, rng'')

/-- Embeds `generate_code_challenge` (`authentication.rs`, lines 232-240):
sample a 128-character alphanumeric `code_verifier`, and let
`code_challenge` be the URL-safe unpadded base64 of the SHA-256 digest of
the bytes of the verifier. -/
def generate_code_challenge (rng : List Nat) :
    Option ((String × String) × List Nat) :=
  match sampleAlphanumericString 128 rng with
  | none => none
  | some (cs, rng') =>
    let code_verifier := String.mk cs
    let code_challenge := base64UrlNoPad (sha256 (cs.map Char.toNat))
    some ((code_verifier, code_challenge), rng')

/-- Every accepted rejection-sampling index lands on an alphanumeric
character of the charset. -/
theorem charset_alphanum (v : Nat) (hv : v < 62) :
    (GEN_ASCII_STR_CHARSET.getD v 'A').isAlphanum = true := by
  revert v
  decide

/-- One `Alphanumeric` sample is an alphanumeric character. -/
theorem sampleAlphanumeric_alphanum (rng : List Nat) (c : Char)
    (rest : List Nat) (h : sampleAlphanumeric rng = some (c, rest)) :
    c.isAlphanum = true := by
  induction rng with
  | nil => simp [sampleAlphanumeric] at h
  | cons v rng ih =>
    rw [sampleAlphanumeric] at h
    split at h
    · cases h
      exact charset_alphanum _ (by assumption)
    · exact ih h

/-- A successful `sample_string` draw has the requested length and only
alphanumeric characters. -/
theorem sampleAlphanumericString_spec (n : Nat) (rng : List Nat)
    (cs : List Char) (rest : List Nat)
    (h : sampleAlphanumericString n rng = some (cs, rest)) :
    cs.length = n ∧ ∀ c ∈ cs, c.isAlphanum = true := by
  induction n generalizing rng cs rest with
  | zero =>
    rw [sampleAlphanumericString] at h
    cases h
    simp
  | succ n ih =>
    rw [sampleAlphanumericString] at h
    rcases h1 : sampleAlphanumeric rng with _ | ⟨c, rng'⟩
    · rw [h1] at h
      simp at h
    · rw [h1] at h
      simp at h
      rcases h2 : sampleAlphanumericString n rng' with _ | ⟨cs', rng''⟩
      · rw [h2] at h
        simp at h
      · rw [h2] at h
        simp at h
        rcases h with ⟨rfl, rfl⟩
        obtain ⟨hl, hmem⟩ := ih rng' cs' rng'' h2
        refine ⟨by simp [hl], ?_⟩
        intro x hx
        rcases List.mem_cons.mp hx with hx | hx
        · subst hx
          exact sampleAlphanumeric_alphanum rng x rng' h1
        · exact hmem x hx

set_option maxRecDepth 100000 in
/-- Claim C7: every generated PKCE pair has a `code_verifier` of exactly
128 alphanumeric characters, and a `code_challenge` equal to the URL-safe
unpadded base64 of the SHA-256 digest of the verifier; the encoder and
digest agree with the fixed known vector for the 128-character verifier
`AA...A`. -/
theorem pkce_generation_spec :
    (∀ (rng rest : List Nat) (v c : String),
      generate_code_challenge rng = some ((v, c), rest) →
      v.length = 128 ∧ (∀ ch ∈ v.data, ch.isAlphanum = true) ∧
      c = base64UrlNoPad (sha256 (v.data.map Char.toNat))) ∧
    base64UrlNoPad (sha256 ((List.replicate 128 'A').map Char.toNat)) =
      "tqw8wQOGMxx2XwTwQcFH0PJ48q7Y6qAh4tAFf8b2_54" := by
  constructor
  · intro rng rest v c h
    rw [generate_code_challenge] at h
    rcases hs : sampleAlphanumericString 128 rng with _ | ⟨cs, rng'⟩
    · rw [hs] at h
      cases h
    · rw [hs] at h
      cases h
      obtain ⟨hl, hmem⟩ := sampleAlphanumericString_spec 128 rng cs _ hs
      exact ⟨hl, hmem, rfl⟩
  · decide

set_option maxRecDepth 100000 in
theorem pkce_generation_spec_witness :
    generate_code_challenge (List.replicate 128 0) =
      some ((String.mk (List.replicate 128 'A'),
        "tqw8wQOGMxx2XwTwQcFH0PJ48q7Y6qAh4tAFf8b2_54"), []) ∧
    ((String.mk (List.replicate 128 'A')).length = 128 ∧
      (∀ ch ∈ (String.mk (List.replicate 128 'A')).data,
        ch.isAlphanum = true) ∧
      "tqw8wQOGMxx2XwTwQcFH0PJ48q7Y6qAh4tAFf8b2_54" =
        base64UrlNoPad (sha256
          ((String.mk (List.replicate 128 'A')).data.map Char.toNat))) :=
  ⟨by decide,
    pkce_generation_spec.1 (List.replicate 128 0) []
      (String.mk (List.replicate 128 'A'))
      "tqw8wQOGMxx2XwTwQcFH0PJ48q7Y6qAh4tAFf8b2_54" (by decide)⟩

/-! ## Serialization (`serde_json::to_string` of `TokenState`) -/

/-- Lowercase hex digit, as emitted by the serde_json escaper. -/
def hexDigitChar (n : Nat) : Char := "0123456789abcdef".data.getD n '0'

/-- JSON string escaping as performed by serde_json: quote and backslash
get a two-character escape, the five short control escapes are used where
they exist, all other control characters below 0x20 become a lowercase
`\u00XX` escape, and everything else passes through. -/
def jsonEscapeChar (c : Char) : List Char :=
  if c = '"' then ['\\', '"']
  else if c = '\\' then ['\\', '\\']
  else if c.toNat = 8 then ['\\', 'b']
  else if c.toNat = 9 then ['\\', 't']
  else if c.toNat = 10 then ['\\', 'n']
  else if c.toNat = 12 then ['\\', 'f']
  else if c.toNat = 13 then ['\\', 'r']
  else if c.toNat < 32 then
    ['\\', 'u', '0', '0', hexDigitChar (c.toNat / 16), hexDigitChar (c.toNat % 16)]
  else [c]

/-- Escape a whole JSON string body. -/
def jsonEscape (s : String) : String :=
  String.mk (s.data.map jsonEscapeChar).flatten

/-- Embeds `serde_json::to_string(&access_token)` for a `TokenState`:
one JSON object with the fields in declaration order. -/
def serializeTokenState (t : TokenState) : String :=
  "\x7b\"access_token\":\"" ++ jsonEscape t.access_token ++
    "\",\"expires_at\":" ++ toString t.expires_at ++
    ",\"refresh_token\":\"" ++ jsonEscape t.refresh_token ++ "\"\x7d"

/-! ## Orchestrator (`authenticate`) -/

/-- Observable effects of one `authenticate` run, in order: opening the
browser on the authorization URL, a POST to the token endpoint, and the
write of the serialized token state to the cache file. -/
inductive Event where
  | browserOpen
  | netTokenRequest
  | fsWrite (content : String)
deriving DecidableEq, Repr

/-- The oracle environment of one `authenticate` run: the outcomes of
every effectful operation the Rust code performs, in the order the code
consults them. -/
structure AuthEnv where
  dataDirOk : Bool
  readResult : FsReadResult
  parseToken : String → Option TokenState
  now : Nat
  refreshNet : String → NetResult
  parseResponse : String → Option AccessTokenResponse
  bindOk : Bool
  rng : List Nat
  browserOk : Bool
  conns : List Conn
  exchangeNet : String → String → NetResult
  mkdirOk : Bool
  writeOk : Bool

/-- Embeds `fetch_fresh_access_token` (`authentication.rs`, lines
109-136): bind the fixed listener port, generate the PKCE pair, open the
browser, wait for the callback code, exchange it at the token endpoint
(the oracle takes the code and the verifier), and convert the response. -/
def fetch_fresh_access_token (env : AuthEnv) :
    Except AuthError (TokenState × List Event) :=
  if !env.bindOk then .error .bindError
  else
    match generate_code_challenge env.rng with
    | none => .error .rngExhausted
    | some ((code_verifier, _code_challenge), _) =>
      if !env.browserOk then .error .browserError
      else
        match spawn_http_server_wait_for_callback env.conns with
        | none => .error .acceptError
        | some code =>
          match fetch_access_token (env.exchangeNet code code_verifier)
              env.parseResponse with
          | .error e => .error e
          | .ok resp =>
            .ok (tryFromResponse resp env.now,
              [.browserOpen, .netTokenRequest])

/-- Embeds `authenticate` (`authentication.rs`, lines 30-48): classify the
cached state; refresh, reuse, or run the interactive flow; then create the
state directory, serialize the resulting record and write it, and return
the bare `access_token` string.  The successful result also carries the
ordered list of effects of the run. -/
def authenticate (env : AuthEnv) : Except AuthError (String × List Event) :=
  match read_token_state env.dataDirOk env.readResult env.parseToken env.now with
  | .error e => .error e
  | .ok state =>
    let fetched : Except AuthError (TokenState × List Event) :=
      match state with
      | .Expired refresh_token =>
        match fetch_access_token_from_refresh (env.refreshNet refresh_token)
            env.parseResponse env.now with
        | .error e => .error e
        | .ok t => .ok (t, [.netTokenRequest])
      | .Valid token => .ok (token, [])
      | .Missing => fetch_fresh_access_token env
    match fetched with
    | .error e => .error e
    | .ok (access_token, evs) =>
      if !env.dataDirOk then .error .noDataDir
      else if !env.mkdirOk then .error .mkdirError
      else
        let serialized_state := serializeTokenState access_token
        if !env.writeOk then .error .writeError
        else .ok (access_token.access_token, evs ++ [.fsWrite serialized_state])

/-- Claim C1: every successful `authenticate` run persists the resulting
record to the cache file as its last effect before the `access_token`
string is returned, in all three classification branches; on the `Valid`
branch no network call and no browser launch occur, the returned string is
the `access_token` of the cached record, and the file is rewritten with the
serialization of the classified in-memory record. -/
theorem authenticate_persists_before_return (env : AuthEnv)
    (tok : String) (evs : List Event)
    (h : authenticate env = .ok (tok, evs)) :
    (∃ t : TokenState, tok = t.access_token ∧
      evs.getLast? = some (.fsWrite (serializeTokenState t))) ∧
    (∀ s record, env.readResult = .ok s →
      env.parseToken s = some record →
      env.now + 300 ≤ record.expires_at →
      tok = record.access_token ∧
      evs = [.fsWrite (serializeTokenState record)]) := by
  rcases env with ⟨dd, rr, pt, now, rn, pr, bo, rng, bro, conns, en, mkd, wr⟩
  constructor
  · rw [authenticate] at h
    rcases hst : read_token_state dd rr pt now with e | st
    · rw [hst] at h
      simp at h
    · rw [hst] at h
      simp only [] at h
      have finish : ∀ (t : TokenState) (evs' : List Event),
          (if !dd then (.error .noDataDir : Except AuthError (String × List Event))
           else if !mkd then .error .mkdirError
           else if !wr then .error .writeError
           else .ok (t.access_token,
             evs' ++ [.fsWrite (serializeTokenState t)])) = .ok (tok, evs) →
          ∃ t : TokenState, tok = t.access_token ∧
            evs.getLast? = some (.fsWrite (serializeTokenState t)) := by
        intro t evs' hfin
        cases dd <;> cases mkd <;> cases wr <;> simp at hfin
        obtain ⟨htok, hevs⟩ := hfin
        exact ⟨t, htok.symm, by rw [← hevs, List.getLast?_concat]⟩
      cases st with
      | Expired rt =>
        dsimp only at h
        rcases hfr : fetch_access_token_from_refresh (rn rt) pr now with e | t
        · rw [hfr] at h
          simp at h
        · rw [hfr] at h
          dsimp only at h
          exact finish t [.netTokenRequest] h
      | Valid t =>
        dsimp only at h
        exact finish t [] h
      | Missing =>
        dsimp only at h
        rw [fetch_fresh_access_token] at h
        dsimp only at h
        cases bo with
        | false => simp at h
        | true =>
          simp only [Bool.not_true, Bool.false_eq_true, if_false] at h
          rcases hg : generate_code_challenge rng with _ | vc
          · rw [hg] at h
            simp at h
          · rcases vc with ⟨⟨cv, cc⟩, rng'⟩
            rw [hg] at h
            dsimp only at h
            cases bro with
            | false => simp at h
            | true =>
              simp only [Bool.not_true, Bool.false_eq_true, if_false] at h
              rcases hw : spawn_http_server_wait_for_callback conns with _ | code
              · rw [hw] at h
                simp at h
              · rw [hw] at h
                dsimp only at h
                rcases hx : fetch_access_token (en code cv) pr with e | resp
                · rw [hx] at h
                  simp at h
                · rw [hx] at h
                  dsimp only at h
                  exact finish (tryFromResponse resp now)
                    [.browserOpen, .netTokenRequest] h
  · intro s record h1 h2 h3
    subst h1
    cases dd with
    | false =>
      rw [authenticate] at h
      simp [read_token_state] at h
    | true =>
      have h2' : pt s = some record := h2
      have h3' : ¬record.expires_at < now + 300 := not_lt.mpr h3
      have hread : read_token_state true (.ok s) pt now = .ok (.Valid record) := by
        simp [read_token_state, h2', h3']
      rw [authenticate, hread] at h
      dsimp only at h
      cases mkd <;> cases wr <;> simp at h
      obtain ⟨htok, hevs⟩ := h
      exact ⟨htok.symm, hevs.symm⟩

/-- Oracle environment of the warm-valid scenario: a parsable cached
record far from expiry, all network oracles inert. -/
def c1Env : AuthEnv :=
  ⟨true, .ok "cached",
    (fun s => if s = "cached" then some ⟨"tok", 10000, "ref"⟩ else none),
    0, (fun _ => .transportError "unused"), (fun _ => none), true, [], true,
    [], (fun _ _ => .transportError "unused"), true, true⟩

theorem authenticate_persists_before_return_witness :
    authenticate c1Env = .ok ("tok",
      [.fsWrite (serializeTokenState (TokenState.mk "tok" 10000 "ref"))]) ∧
    ((∃ t : TokenState, "tok" = t.access_token ∧
        [Event.fsWrite (serializeTokenState
          (TokenState.mk "tok" 10000 "ref"))].getLast? =
          some (.fsWrite (serializeTokenState t))) ∧
      (∀ s record, c1Env.readResult = .ok s →
        c1Env.parseToken s = some record →
        c1Env.now + 300 ≤ record.expires_at →
        "tok" = record.access_token ∧
        [Event.fsWrite (serializeTokenState (TokenState.mk "tok" 10000 "ref"))] =
          [.fsWrite (serializeTokenState record)])) :=
  ⟨rfl, authenticate_persists_before_return c1Env _ _ rfl⟩

end SpotifyBackup
